import Mathlib

/-!
# Verification of the SumoTracker ingestion pipeline

Shallow embedding of the core ingestion pipeline of the SumoTracker
repository (`src/sumo_tracker`): the bout parser, the tournament date
resolver, the range planner and day crawler, the dedup store, the cached
HTTP transport, and the daily-day heuristic.  Dates are modelled as
integer day numbers (so `timedelta(days=k)` is `+ k`) except for the
daily-day heuristic, which needs a real calendar date
(year / month / day-of-month).  Python dicts parsed from JSON are
modelled as structures whose fields record presence (`Option`) exactly
where the code distinguishes a missing key from a present one.
-/

namespace SumoTracker

/-! ## Data model (`models/match.py`) -/

/-- A stored match record, after `Match(...)` construction in
`parse_match_data`.  `winner_id` / `loser_id` are nullable foreign keys;
`tournament_day` is set by the parser on every record it creates. -/
structure MatchRec where
  tournament_id : Int
  tournament_day : Int
  match_date : Int
  division : String
  winner_name : String
  loser_name : String
  winner_id : Option Int
  loser_id : Option Int
  winning_technique : String
deriving DecidableEq, Repr

/-- The uniqueness key of `Match.__table_args__`:
`(tournament_id, winner_name, loser_name, match_date)`. -/
def MatchRec.key (m : MatchRec) : Int × String × String × Int :=
  (m.tournament_id, m.winner_name, m.loser_name, m.match_date)

/-! ## Raw bout records (the JSON consumed by `parse_match_data`) -/

/-- One side of a raw bout (`east` / `west` sub-object).  The parser reads
`rikishi_id` with `get` (default `None`), and `shikona_eng` /
`banzuke_name_eng` with `get(..., '')`; the structure stores the values
those `get` calls produce. -/
structure Competitor where
  rikishi_id : Option Int := none
  shikona_eng : String := ""
  banzuke_name_eng : String := ""
deriving DecidableEq, Repr

/-- One raw bout of `TorikumiData`.  `east` / `west` are `none` when the
sub-object is missing or null (the code applies `match.get('east', {}) or {}`).
`judge` is `none` when the key is absent or null. -/
structure Bout where
  technic_name_eng : String := ""
  east : Option Competitor := none
  west : Option Competitor := none
  judge : Option Int := none
deriving DecidableEq, Repr

/-- The parsed JSON body handed to `parse_match_data`.  The outer `Option`
on `torikumiData` is key presence (`'TorikumiData' in json_data`), the
inner one distinguishes a null value from a list. -/
structure Payload where
  torikumiData : Option (Option (List Bout))
deriving DecidableEq, Repr

/-! ## Bout parser (`parse_match_data`, match_scraper.py lines 264-323) -/

/-- The body of the `for match in torikumi_data` loop: zero or one
`Match` records for one raw bout.  `division` models the Python
`east.get('banzuke_name_eng', '') or west.get('banzuke_name_eng', '')`
(an empty east value is falsy, so west's value is used). -/
def parseBout (b : Bout) (match_date : Int) (tournament_id : Int) (day : Int) :
    List MatchRec :=
  let technique := b.technic_name_eng
  let east := b.east.getD {}
  let west := b.west.getD {}
  let east_id := east.rikishi_id
  let west_id := west.rikishi_id
  let division :=
    if east.banzuke_name_eng ≠ "" then east.banzuke_name_eng
    else west.banzuke_name_eng
  if b.judge = some 1 then
    [{ tournament_id := tournament_id
       tournament_day := day
       match_date := match_date
       division := division
       winner_name := east.shikona_eng
       loser_name := west.shikona_eng
       winner_id := east_id
       loser_id := west_id
       winning_technique := technique }]
  else if b.judge = some 2 then
    [{ tournament_id := tournament_id
       tournament_day := day
       match_date := match_date
       division := division
       winner_name := west.shikona_eng
       loser_name := east.shikona_eng
       winner_id := west_id
       loser_id := east_id
       winning_technique := technique }]
  else []

/-- `parse_match_data(json_data, match_date, tournament_id, day)`.
A `None` payload yields `[]`; `json_data.get('TorikumiData', [])` yields
`[]` when the key is absent; a null `TorikumiData` yields `[]`; otherwise
the loop accumulates `parseBout` over the list. -/
def parse_match_data (json_data : Option Payload) (match_date : Int)
    (tournament_id : Int) (day : Int) : List MatchRec :=
  match json_data with
  | none => []
  | some p =>
    match p.torikumiData with
    | none => []
    | some none => []
    | some (some bouts) =>
      bouts.flatMap (fun b => parseBout b match_date tournament_id day)

/-! ## Date resolver (`get_tournament_dates`, match_scraper.py lines 209-262)

The resolver's environment: the static override module
`tournament_dates_mapping` (`none` models the `ImportError` when the
module is absent), and the outcome of the day-1 AJAX request (issued
only inside the `except ImportError:` block). -/

/-- `(start_date, end_date)` as integer day numbers. -/
abbrev DateRange := Int × Int

/-- Association-list lookup, modelling a Python dict membership test plus
indexing. -/
def alookup {α : Type} (l : List (Int × α)) (k : Int) : Option α :=
  (l.find? (fun p => p.1 = k)).map (·.2)

/-- Outcome of the `dayHead` date extraction of the AJAX fallback:
`found s` — the regex matched and `datetime.strptime` parsed a start
date; `notFound` — no regex match, or a `JSONDecodeError` /
`AttributeError` caught by the inner handler, after which the function
reaches its `return None`; `raises` — the regex matched but `strptime`
raises `ValueError` (e.g. an abbreviated month name), which no handler
of the function catches. -/
inductive ExtractOutcome where
  | found (start_date : Int)
  | notFound
  | raises
deriving DecidableEq, Repr

/-- Outcome of the day-1 AJAX call in the resolver.  `requestFails`
models `_throttled_request` / `raise_for_status()` raising; since that
code runs inside the `except ImportError:` handler and a sibling
`except Exception:` clause guards only the `try` body, such an exception
propagates out of `get_tournament_dates`.  `dayHead` is the outcome of
the date extraction when the request succeeds. -/
structure AjaxEnv where
  requestFails : Bool
  dayHead : ExtractOutcome
deriving DecidableEq, Repr

/-- Environment of the date resolver: `overrideTable = none` models
`ImportError` on `from tournament_dates_mapping import TOURNAMENT_DATES`. -/
structure ResolverEnv where
  overrideTable : Option (List (Int × DateRange))
  ajax : AjaxEnv
deriving DecidableEq, Repr

/-- How one `get_tournament_dates` call ends: a normal `return` (of a
range or of `None`), or an uncaught exception propagating to the
caller. -/
inductive ResolveOutcome where
  | returned (r : Option DateRange)
  | raised
deriving DecidableEq, Repr

/-- Result of one `get_tournament_dates` call: how it ended, the
in-memory cache afterwards, and whether the day-1 AJAX request was
attempted. -/
structure ResolveResult where
  outcome : ResolveOutcome
  cache : List (Int × DateRange)
  ajaxAttempted : Bool
deriving DecidableEq, Repr

/-- `get_tournament_dates(tournament_id)`.  Checks the in-memory cache,
then tries to import the override mapping: on a hit, caches and returns
it; on a miss the `try` block ends and the function falls through to its
implicit `return None`.  Only when the import raises `ImportError` does
the `except ImportError:` block run the day-1 AJAX request and regex
extraction, setting `end_date = start_date + 14` on success; an exception
raised there (a transport/HTTP error, or `strptime` on a regex match it
cannot parse) propagates out of the function, because the sibling
`except Exception:` clause cannot catch exceptions raised inside another
handler of the same `try`. -/
def get_tournament_dates (env : ResolverEnv)
    (cache : List (Int × DateRange)) (tournament_id : Int) : ResolveResult :=
  match alookup cache tournament_id with
  | some r => ⟨ResolveOutcome.returned (some r), cache, false⟩
  | none =>
    match env.overrideTable with
    | some table =>
      match alookup table tournament_id with
      | some r =>
        ⟨ResolveOutcome.returned (some r), (tournament_id, r) :: cache, false⟩
      | none => ⟨ResolveOutcome.returned none, cache, false⟩
    | none =>
      if env.ajax.requestFails then ⟨ResolveOutcome.raised, cache, true⟩
      else
        match env.ajax.dayHead with
        | ExtractOutcome.found start_date =>
          ⟨ResolveOutcome.returned (some (start_date, start_date + 14)),
           (tournament_id, (start_date, start_date + 14)) :: cache, true⟩
        | ExtractOutcome.notFound =>
          ⟨ResolveOutcome.returned none, cache, true⟩
        | ExtractOutcome.raises => ⟨ResolveOutcome.raised, cache, true⟩

/-! ## Range planner and day loop (`get_all_tournament_results`,
match_scraper.py lines 414-453) -/

/-- The `days_to_scrape` computation: concluded tournaments get all 15
days, ongoing ones `(today - start_date).days + 1`, upcoming ones 0. -/
def days_to_scrape (start_date end_date today : Int) : Int :=
  if end_date < today then 15
  else if start_date ≤ today ∧ today ≤ end_date then today - start_date + 1
  else 0

/-- The day numbers actually requested by the
`for day in range(1, days_to_scrape + 1)` loop (guarded by
`if days_to_scrape > 0`). -/
def crawledDays (start_date end_date today : Int) : List Nat :=
  let n := days_to_scrape start_date end_date today
  if n > 0 then List.range' 1 n.toNat else []

/-! ## Day fetcher (`fetch_matches`, match_scraper.py lines 325-394)

The success path of `fetch_matches`: the AJAX response's parsed JSON and
the resolver's answer are the environment; transport failures and retry
exhaustion all return `[]` in the code and are subsumed by
`ajaxPayload = none`. -/

/-- Environment of one `fetch_matches` call. -/
structure FetchEnv where
  ajaxPayload : Option Payload
  dates : Option DateRange
deriving DecidableEq, Repr

/-- `fetch_matches(tournament_id, division, day)`: a `None` JSON body or a
body without `'TorikumiData'` yields `[]`; unresolved tournament dates
yield `[]`; otherwise the bouts are parsed with
`match_date = start_date + timedelta(days=day - 1)`. -/
def fetch_matches (env : FetchEnv) (tournament_id : Int) (day : Int) :
    List MatchRec :=
  match env.ajaxPayload with
  | none => []
  | some payload =>
    match payload.torikumiData with
    | none => []
    | some _ =>
      match env.dates with
      | none => []
      | some (start_date, _) =>
        parse_match_data (some payload) (start_date + (day - 1))
          tournament_id day

/-! ## Dedup store (`store_matches`, initial_data_dump.py lines 21-66)

The database session is modelled by two row lists: `committed`, the rows
committed before this call, and `pending`, the inserts flushed in the
current (uncommitted) transaction.  `session.flush()` executes the
`INSERT` inside the transaction, so it raises `IntegrityError` exactly
when the candidate's uniqueness key is already present among committed or
pending rows — and the `session.rollback()` that follows rolls back the
WHOLE uncommitted transaction (there is no SAVEPOINT), expunging every
pending insert of this batch, while `stored_count` and the in-memory
`existing_matches` set keep the values they already had. -/

/-- State after `store_matches`: the rows, and the returned
`(len(matches), stored_count)` pair. -/
structure StoreResult where
  db : List MatchRec
  total : Nat
  stored : Nat
deriving DecidableEq, Repr

/-- The `for match in matches` loop of `store_matches`: skip candidates
whose key is in the in-memory `existing_matches` set; otherwise
`session.add` + `session.flush()`; on `IntegrityError` the
`session.rollback()` discards all pending inserts of the batch and the
loop continues with `stored_count` (and the key set) unchanged.  Returns
the pending inserts of the transaction and `stored_count`. -/
def storeLoop (committed : List MatchRec) (pending : List MatchRec)
    (existing : List (Int × String × String × Int)) (stored : Nat) :
    List MatchRec → List MatchRec × Nat
  | [] => (pending, stored)
  | m :: rest =>
    if m.key ∈ existing then storeLoop committed pending existing stored rest
    else if m.key ∈ (committed ++ pending).map MatchRec.key then
      storeLoop committed [] existing stored rest
    else storeLoop committed (pending ++ [m]) (m.key :: existing)
      (stored + 1) rest

/-- `store_matches(session, matches, tournament_id)`: loads the keys of
the committed rows with this `tournament_id` into `existing_matches`,
runs the insert loop on a fresh transaction, then performs the final
`session.commit()` of whatever inserts are still pending (each of them
flushed successfully after the last rollback, so the commit itself
cannot hit the uniqueness constraint).  Returns
`(len(matches), stored_count)`. -/
def store_matches (db : List MatchRec) (candidates : List MatchRec)
    (tournament_id : Int) : StoreResult :=
  let existing :=
    (db.filter (fun m => m.tournament_id = tournament_id)).map MatchRec.key
  let r := storeLoop db [] existing 0 candidates
  ⟨db ++ r.1, candidates.length, r.2⟩

/-! ## Cached transport (`_cached_request` and friends,
match_scraper.py lines 67-207)

The cache key is modelled by the pre-hash `key_string`
(`'|'.join([method, url] ++ sorted params ++ sorted data)`); the `md5`
applied to it in `_get_cache_key` is injective for the purposes of the
code (identical requests map to identical keys).  The network is a
function from the call counter to the response it returns;
`_throttled_request`'s `time.sleep(1)` has no observable effect here. -/

/-- An HTTP request as `_cached_request` sees it: method, url, `params`
and `data` keyword arguments. -/
structure Request where
  method : String
  url : String
  params : List (String × String)
  data : List (String × String)
deriving DecidableEq, Repr

/-- `_get_cache_key`: join method, url and the sorted `params` / `data`
items into one string (the md5 of which the code uses as file name). -/
def get_cache_key (r : Request) : String :=
  let part := fun (p : String × String) => p.1 ++ "=" ++ p.2
  let le := fun (a b : String × String) =>
    a.1 < b.1 || (a.1 == b.1 && a.2 ≤ b.2)
  String.intercalate "|"
    ([r.method, r.url] ++ (r.params.mergeSort le).map part
      ++ (r.data.mergeSort le).map part)

/-- What `_cached_request` pickles for a 200 response: text, content, and
the parsed JSON body when the `Content-Type` header contains
`application/json` (a boolean fact of the response here). -/
structure CachedData where
  text : String
  content : String
  json : Option String
deriving DecidableEq, Repr

/-- A response as the scraper observes it.  `jsonBody` is the value
`response.json()` would return (opaque here); `contentTypeJson` is the
`'application/json' in response.headers.get('Content-Type', '')` test. -/
structure HttpResponse where
  status_code : Int
  text : String
  content : String
  jsonBody : Option String
  contentTypeJson : Bool
deriving DecidableEq, Repr

/-- Mutable state of the transport: the response cache (keyed by
`_get_cache_key` strings) and the number of real network calls made. -/
structure TransportState where
  cache : List (String × CachedData)
  networkCalls : Nat
deriving DecidableEq, Repr

/-- Cache-store lookup by key string. -/
def cacheLookup (st : TransportState) (k : String) : Option CachedData :=
  (st.cache.find? (fun p => p.1 = k)).map (·.2)

/-- The `CachedResponse` object synthesized from cached fields: status
200, cached text/content, and `json()` returning the cached value. -/
def synthesizeResponse (cd : CachedData) : HttpResponse :=
  { status_code := 200
    text := cd.text
    content := cd.content
    jsonBody := cd.json
    contentTypeJson := cd.json.isSome }

/-- The fields `_cached_request` pickles from a successful response. -/
def toCachedData (r : HttpResponse) : CachedData :=
  { text := r.text
    content := r.content
    json := if r.contentTypeJson then r.jsonBody else none }

/-- `_throttled_request` in normal mode: one real network call (the
`Except` result models a raised `requests` exception, which this model's
network never produces — retries live in the callers). -/
def throttled_request (net : Nat → HttpResponse) (st : TransportState)
    (_r : Request) : Except String HttpResponse × TransportState :=
  (Except.ok (net st.networkCalls),
   { st with networkCalls := st.networkCalls + 1 })

/-- `_cached_request_only`: the replacement installed by
`set_cache_only_mode(True)` in the `_throttled_request` slot.  A cache
miss raises (`Exception(f"No cached data available ...")`), a hit returns
the synthesized response; no network call either way. -/
def cached_request_only (st : TransportState) (r : Request) :
    Except String HttpResponse × TransportState :=
  match cacheLookup st (get_cache_key r) with
  | none => (Except.error "No cached data available", st)
  | some cd => (Except.ok (synthesizeResponse cd), st)

/-- `_cached_request(method, url, **kwargs)`, generic over whatever sits
in the `_throttled_request` slot (`set_cache_only_mode` swaps that slot).
With caching off it defers to the slot; otherwise a cache hit is served
without touching the slot, and on a miss the slot's response is written
back to the cache exactly when `response.status_code == 200`. -/
def cached_request
    (raw : TransportState → Request → Except String HttpResponse × TransportState)
    (use_cache : Bool) (st : TransportState) (r : Request) :
    Except String HttpResponse × TransportState :=
  if !use_cache then raw st r
  else
    match cacheLookup st (get_cache_key r) with
    | some cd => (Except.ok (synthesizeResponse cd), st)
    | none =>
      match raw st r with
      | (Except.error e, st') => (Except.error e, st')
      | (Except.ok resp, st') =>
        if resp.status_code = 200 then
          (Except.ok resp,
           { st' with cache := (get_cache_key r, toCachedData resp) :: st'.cache })
        else (Except.ok resp, st')

/-! ## Daily-day heuristic (`get_current_tournament_day`,
daily_update.py lines 17-30) -/

/-- A calendar date, needed only by the daily-day heuristic. -/
structure CalDate where
  year : Nat
  month : Nat
  day : Nat
deriving DecidableEq, Repr

/-- Gregorian leap-year rule. -/
def isLeapYear (y : Nat) : Bool :=
  (y % 4 == 0 && !(y % 100 == 0)) || y % 400 == 0

/-- Number of days in a month of a given year. -/
def daysInMonth (y m : Nat) : Nat :=
  if m = 2 then (if isLeapYear y then 29 else 28)
  else if m = 4 ∨ m = 6 ∨ m = 9 ∨ m = 11 then 30
  else 31

/-- Modelled from the spec: "the same formula applied to tomorrow's
date" — the calendar date one day after `d` (Python
`today + timedelta(days=1)`), used as the spec-side reference the
heuristic is compared against.  The code itself never computes it. -/
def nextCalendarDay (d : CalDate) : CalDate :=
  if d.day < daysInMonth d.year d.month then ⟨d.year, d.month, d.day + 1⟩
  else if d.month < 12 then ⟨d.year, d.month + 1, 1⟩
  else ⟨d.year + 1, 1, 1⟩

/-- `get_current_tournament_day()`:
`(today.day % 15) + 1 if current_hour < 19 else ((today.day + 1) % 15) + 1`. -/
def get_current_tournament_day (today : CalDate) (current_hour : Nat) : Nat :=
  if current_hour < 19 then today.day % 15 + 1
  else (today.day + 1) % 15 + 1

/-! ## Helper lemmas -/

/-- Every record emitted by `parseBout` carries the tournament id, day and
match date it was called with. -/
theorem parseBout_fields (b : Bout) (md t d : Int) (m : MatchRec)
    (hm : m ∈ parseBout b md t d) :
    m.tournament_id = t ∧ m.tournament_day = d ∧ m.match_date = md := by
  simp only [parseBout] at hm
  split at hm
  · simp only [List.mem_singleton] at hm
    subst hm; exact ⟨rfl, rfl, rfl⟩
  · split at hm
    · simp only [List.mem_singleton] at hm
      subst hm; exact ⟨rfl, rfl, rfl⟩
    · simp at hm

/-- Every record emitted by `parse_match_data` carries the tournament id,
day and match date it was called with. -/
theorem parse_match_data_fields (p : Option Payload) (md t d : Int)
    (m : MatchRec) (hm : m ∈ parse_match_data p md t d) :
    m.tournament_id = t ∧ m.tournament_day = d ∧ m.match_date = md := by
  match p with
  | none => simp [parse_match_data] at hm
  | some pl =>
    match hpl : pl.torikumiData with
    | none => simp [parse_match_data, hpl] at hm
    | some none => simp [parse_match_data, hpl] at hm
    | some (some bouts) =>
      simp only [parse_match_data, hpl, List.mem_flatMap] at hm
      obtain ⟨b, _, hb⟩ := hm
      exact parseBout_fields b md t d m hb

/-- Membership in the keys of rows extended by one insert. -/
theorem keys_append_snoc {c p : List MatchRec} {m : MatchRec}
    {k : Int × String × String × Int} :
    k ∈ (c ++ (p ++ [m])).map MatchRec.key ↔
      k ∈ (c ++ p).map MatchRec.key ∨ k = m.key := by
  simp [or_assoc]

/-- When every remaining candidate is in the scope `t` and every in-scope
key of the visible rows is already in the in-memory set, the rollback
branch of the loop is unreachable and the visible rows only grow. -/
theorem storeLoop_mono (t : Int) (rest : List MatchRec) :
    ∀ committed pending existing s,
      (∀ k ∈ (committed ++ pending).map MatchRec.key, k.1 = t →
        k ∈ existing) →
      (∀ m ∈ rest, m.tournament_id = t) →
      ∀ x ∈ committed ++ pending,
        x ∈ committed ++ (storeLoop committed pending existing s rest).1 := by
  induction rest with
  | nil => intro c p e s _ _ x hx; simpa [storeLoop] using hx
  | cons m rest ih =>
    intro c p e s hinv hscope x hx
    have hmt : m.tournament_id = t := hscope m (List.mem_cons_self m rest)
    have hscope2 : ∀ m1 ∈ rest, m1.tournament_id = t :=
      fun m1 hm1 => hscope m1 (List.mem_cons_of_mem m hm1)
    rw [storeLoop]
    by_cases hme : m.key ∈ e
    · rw [if_pos hme]
      exact ih c p e s hinv hscope2 x hx
    · have hnk : m.key ∉ (c ++ p).map MatchRec.key :=
        fun hk => hme (hinv m.key hk hmt)
      rw [if_neg hme, if_neg hnk]
      have hinv2 : ∀ k ∈ (c ++ (p ++ [m])).map MatchRec.key, k.1 = t →
          k ∈ m.key :: e := by
        intro k hk hkt
        rcases keys_append_snoc.mp hk with hk1 | hk1
        · exact List.mem_cons_of_mem _ (hinv k hk1 hkt)
        · exact hk1 ▸ List.mem_cons_self _ _
      have hx2 : x ∈ c ++ (p ++ [m]) := by
        rcases List.mem_append.mp hx with h1 | h1
        · exact List.mem_append_left _ h1
        · exact List.mem_append_right _ (List.mem_append_left _ h1)
      exact ih c (p ++ [m]) (m.key :: e) (s + 1) hinv2 hscope2 x hx2

/-- After the loop every processed candidate of the scope has its key
among the visible rows, when the in-memory set and the rows agree on the
scope as `store_matches` initializes them. -/
theorem storeLoop_keys_present (t : Int) (rest : List MatchRec) :
    ∀ committed pending existing s,
      (∀ k ∈ existing, k ∈ (committed ++ pending).map MatchRec.key) →
      (∀ k ∈ (committed ++ pending).map MatchRec.key, k.1 = t →
        k ∈ existing) →
      (∀ m ∈ rest, m.tournament_id = t) →
      ∀ m ∈ rest, m.key ∈
        (committed ++ (storeLoop committed pending existing s rest).1).map
          MatchRec.key := by
  induction rest with
  | nil => intro c p e s _ _ _ m hm; simp at hm
  | cons m0 rest ih =>
    intro c p e s hex hinv hscope m hm
    have hmt : m0.tournament_id = t := hscope m0 (List.mem_cons_self m0 rest)
    have hscope2 : ∀ m1 ∈ rest, m1.tournament_id = t :=
      fun m1 hm1 => hscope m1 (List.mem_cons_of_mem m0 hm1)
    rw [storeLoop]
    by_cases hme : m0.key ∈ e
    · rw [if_pos hme]
      rcases List.mem_cons.mp hm with hmc | hmr
      · subst hmc
        have hk : m.key ∈ (c ++ p).map MatchRec.key := hex _ hme
        obtain ⟨x, hx, hxk⟩ := List.mem_map.mp hk
        exact List.mem_map.mpr
          ⟨x, storeLoop_mono t rest c p e s hinv hscope2 x hx, hxk⟩
      · exact ih c p e s hex hinv hscope2 m hmr
    · have hnk : m0.key ∉ (c ++ p).map MatchRec.key :=
        fun hk => hme (hinv m0.key hk hmt)
      rw [if_neg hme, if_neg hnk]
      have hinv2 : ∀ k ∈ (c ++ (p ++ [m0])).map MatchRec.key, k.1 = t →
          k ∈ m0.key :: e := by
        intro k hk hkt
        rcases keys_append_snoc.mp hk with hk1 | hk1
        · exact List.mem_cons_of_mem _ (hinv k hk1 hkt)
        · exact hk1 ▸ List.mem_cons_self _ _
      have hex2 : ∀ k ∈ m0.key :: e,
          k ∈ (c ++ (p ++ [m0])).map MatchRec.key := by
        intro k hk
        rcases List.mem_cons.mp hk with hk1 | hk1
        · exact keys_append_snoc.mpr (Or.inr hk1)
        · exact keys_append_snoc.mpr (Or.inl (hex _ hk1))
      rcases List.mem_cons.mp hm with hmc | hmr
      · subst hmc
        have hx : m ∈ c ++ (p ++ [m]) :=
          List.mem_append_right _
            (List.mem_append_right _ (List.mem_singleton.mpr rfl))
        exact List.mem_map.mpr
          ⟨m, storeLoop_mono t rest c (p ++ [m]) (m.key :: e) (s + 1)
            hinv2 hscope2 m hx, rfl⟩
      · exact ih c (p ++ [m0]) (m0.key :: e) (s + 1) hex2 hinv2 hscope2 m hmr

/-- When every candidate key is already in the in-memory set, the loop
skips everything: no insert, no rollback, no count. -/
theorem storeLoop_all_in_existing (rest : List MatchRec) :
    ∀ committed pending existing s,
      (∀ m ∈ rest, m.key ∈ existing) →
      storeLoop committed pending existing s rest = (pending, s) := by
  induction rest with
  | nil => intro c p e s _; rfl
  | cons m rest ih =>
    intro c p e s hall
    rw [storeLoop, if_pos (hall m (List.mem_cons_self m rest))]
    exact ih c p e s (fun m1 hm1 => hall m1 (List.mem_cons_of_mem m hm1))

/-- Under the scope hypotheses (no reachable rollback) the loop stores
exactly the candidates whose key is absent from the visible rows,
provided the candidate keys are pairwise distinct. -/
theorem storeLoop_count (t : Int) (rest : List MatchRec) :
    ∀ committed pending existing s,
      (∀ k ∈ existing, k ∈ (committed ++ pending).map MatchRec.key) →
      (∀ k ∈ (committed ++ pending).map MatchRec.key, k.1 = t →
        k ∈ existing) →
      (∀ m ∈ rest, m.tournament_id = t) →
      (rest.map MatchRec.key).Nodup →
      (storeLoop committed pending existing s rest).2 =
        s + rest.countP
          (fun m => decide (m.key ∉ (committed ++ pending).map
            MatchRec.key)) := by
  induction rest with
  | nil => intro c p e s _ _ _ _; simp [storeLoop]
  | cons m0 rest ih =>
    intro c p e s hex hinv hscope hnd
    have hmt : m0.tournament_id = t := hscope m0 (List.mem_cons_self m0 rest)
    have hscope2 : ∀ m1 ∈ rest, m1.tournament_id = t :=
      fun m1 hm1 => hscope m1 (List.mem_cons_of_mem m0 hm1)
    have hpair : (∀ x ∈ rest, ¬x.key = m0.key) ∧
        (rest.map MatchRec.key).Nodup := by simpa using hnd
    rw [storeLoop]
    by_cases hme : m0.key ∈ e
    · have hc : m0.key ∈ (c ++ p).map MatchRec.key := hex _ hme
      rw [if_pos hme, ih c p e s hex hinv hscope2 hpair.2,
        List.countP_cons_of_neg _ _ (by simp only [decide_eq_true_eq, not_not]; exact hc)]
    · have hnk : m0.key ∉ (c ++ p).map MatchRec.key :=
        fun hk => hme (hinv m0.key hk hmt)
      rw [if_neg hme, if_neg hnk]
      have hinv2 : ∀ k ∈ (c ++ (p ++ [m0])).map MatchRec.key, k.1 = t →
          k ∈ m0.key :: e := by
        intro k hk hkt
        rcases keys_append_snoc.mp hk with hk1 | hk1
        · exact List.mem_cons_of_mem _ (hinv k hk1 hkt)
        · exact hk1 ▸ List.mem_cons_self _ _
      have hex2 : ∀ k ∈ m0.key :: e,
          k ∈ (c ++ (p ++ [m0])).map MatchRec.key := by
        intro k hk
        rcases List.mem_cons.mp hk with hk1 | hk1
        · exact keys_append_snoc.mpr (Or.inr hk1)
        · exact keys_append_snoc.mpr (Or.inl (hex _ hk1))
      rw [ih c (p ++ [m0]) (m0.key :: e) (s + 1) hex2 hinv2 hscope2 hpair.2]
      have hcount : rest.countP
          (fun m => decide (m.key ∉ (c ++ (p ++ [m0])).map MatchRec.key)) =
          rest.countP
            (fun m => decide (m.key ∉ (c ++ p).map MatchRec.key)) := by
        apply List.countP_congr
        intro m hm
        have hmk : m.key ≠ m0.key := hpair.1 m hm
        have hiff : (m.key ∉ (c ++ (p ++ [m0])).map MatchRec.key) ↔
            (m.key ∉ (c ++ p).map MatchRec.key) := by
          rw [not_iff_not, keys_append_snoc]
          simp [hmk]
        simpa only [decide_eq_true_eq] using hiff
      rw [hcount, List.countP_cons_of_pos _ _ (by simp only [decide_eq_true_eq]; exact hnk)]
      omega

/-- The loop preserves key-uniqueness of the visible rows for ALL inputs:
an insert is flushed only when its key is absent, and a rollback only
shrinks the pending rows back to the committed ones. -/
theorem storeLoop_nodup (rest : List MatchRec) :
    ∀ committed pending existing s,
      ((committed ++ pending).map MatchRec.key).Nodup →
      ((committed ++ (storeLoop committed pending existing s rest).1).map
        MatchRec.key).Nodup := by
  induction rest with
  | nil => intro c p e s h; simpa [storeLoop] using h
  | cons m rest ih =>
    intro c p e s h
    rw [storeLoop]
    by_cases hme : m.key ∈ e
    · rw [if_pos hme]
      exact ih c p e s h
    · rw [if_neg hme]
      by_cases hk : m.key ∈ (c ++ p).map MatchRec.key
      · rw [if_pos hk]
        refine ih c [] e s ?_
        have h2 : (c.map MatchRec.key).Nodup := by
          rw [List.map_append] at h
          exact (List.nodup_append.mp h).1
        simpa using h2
      · rw [if_neg hk]
        refine ih c (p ++ [m]) (m.key :: e) (s + 1) ?_
        have hassoc : c ++ (p ++ [m]) = (c ++ p) ++ [m] :=
          (List.append_assoc c p [m]).symm
        rw [hassoc, List.map_append]
        refine List.Nodup.append h (by simp) ?_
        intro k hk1 hk2
        simp only [List.map_cons, List.map_nil, List.mem_singleton] at hk2
        exact hk (hk2 ▸ hk1)

/-! ## Claim theorems -/

/-- C3: for a resolved range with `end_date = start_date + 14`, the number
of tournament days crawled is 0 when today precedes the start,
`(today - start_date) + 1` during the tournament, and 15 after it; the
boundary inputs `start - 1`, `start + 3` and `start + 20` give 0, 4 and
15; and the day loop never requests a day beyond that bound (which never
exceeds 15). -/
theorem range_planner_boundary (start_date today : Int) :
    (today < start_date →
      days_to_scrape start_date (start_date + 14) today = 0) ∧
    (start_date ≤ today → today ≤ start_date + 14 →
      days_to_scrape start_date (start_date + 14) today =
        today - start_date + 1) ∧
    (start_date + 14 < today →
      days_to_scrape start_date (start_date + 14) today = 15) ∧
    days_to_scrape start_date (start_date + 14) (start_date - 1) = 0 ∧
    days_to_scrape start_date (start_date + 14) (start_date + 3) = 4 ∧
    days_to_scrape start_date (start_date + 14) (start_date + 20) = 15 ∧
    ∀ d ∈ crawledDays start_date (start_date + 14) today,
      (d : Int) ≤ days_to_scrape start_date (start_date + 14) today ∧
        days_to_scrape start_date (start_date + 14) today ≤ 15 := by
  refine ⟨?_, ?_, ?_, ?_, ?_, ?_, ?_⟩
  · intro h; simp only [days_to_scrape]; split_ifs <;> omega
  · intro h1 h2; simp only [days_to_scrape]; split_ifs with hs1 hs2
    · omega
    · omega
    · exact absurd ⟨h1, h2⟩ hs2
  · intro h
    simp only [days_to_scrape]
    split_ifs
    all_goals omega
  · simp only [days_to_scrape]; split_ifs with hs1 hs2
    · omega
    · omega
    · omega
  · simp only [days_to_scrape]; split_ifs <;> omega
  · simp only [days_to_scrape]; split_ifs <;> omega
  · intro d hd
    have h15 : days_to_scrape start_date (start_date + 14) today ≤ 15 := by
      simp only [days_to_scrape]; split_ifs <;> omega
    refine ⟨?_, h15⟩
    by_cases hn : days_to_scrape start_date (start_date + 14) today > 0
    · simp only [crawledDays, if_pos hn] at hd
      have hb := List.mem_range'_1.mp hd
      omega
    · simp [crawledDays, hn] at hd

/-- Witness for C3 at `start_date = 0`, `today = 3` (the `D + 3` boundary
case of the claim). -/
theorem range_planner_boundary_witness :
    days_to_scrape 0 (0 + 14) 3 = 3 - 0 + 1 :=
  (range_planner_boundary 0 3).2.1 (by decide) (by decide)

/-- C6 counterexample: on the last day of a month, after the 19:00
cutoff, the heuristic does not agree with the claimed "same formula
applied to tomorrow's date": at January 31, 2025, hour 20 the code
returns `((31 + 1) % 15) + 1 = 3`, while tomorrow (February 1) gives
`(1 % 15) + 1 = 2`. -/
theorem daily_heuristic_tomorrow_counterexample :
    get_current_tournament_day ⟨2025, 1, 31⟩ 20 ≠
      (nextCalendarDay ⟨2025, 1, 31⟩).day % 15 + 1 := by decide

/-- C6 amended: before the 19:00 cutoff the heuristic returns
`(day_of_month % 15) + 1`; from 19:00 on it returns
`((day_of_month + 1) % 15) + 1`, which coincides with the formula applied
to tomorrow's date whenever today is not the last day of its month. -/
theorem daily_heuristic_formula (d : CalDate) (hour : Nat) :
    (hour < 19 → get_current_tournament_day d hour = d.day % 15 + 1) ∧
    (19 ≤ hour → get_current_tournament_day d hour = (d.day + 1) % 15 + 1) ∧
    (19 ≤ hour → d.day < daysInMonth d.year d.month →
      get_current_tournament_day d hour = (nextCalendarDay d).day % 15 + 1) := by
  refine ⟨?_, ?_, ?_⟩
  · intro h; simp [get_current_tournament_day, h]
  · intro h; simp [get_current_tournament_day, Nat.not_lt.mpr h]
  · intro h hd
    simp [get_current_tournament_day, Nat.not_lt.mpr h, nextCalendarDay, hd]

/-- Witness for C6 at the spec's quoted input: day-of-month 9, hour 10. -/
theorem daily_heuristic_formula_witness :
    get_current_tournament_day ⟨2025, 9, 9⟩ 10 = 10 := by
  have h := (daily_heuristic_formula ⟨2025, 9, 9⟩ 10).1 (by decide)
  simpa using h

/-- C1 counterexample: a decided bout with `judge = 1` yields one record,
not the two records the claim asserts (in either of its two phrasings a
decided bout produces one record per competitor, hence two). -/
theorem parser_judge1_two_records_counterexample :
    ¬ ((parse_match_data
        (some ⟨some (some [⟨"yorikiri",
          some ⟨some 1, "HAKUHO", "Makuuchi"⟩,
          some ⟨some 2, "ASASHORYU", "Makuuchi"⟩, some 1⟩])⟩)
        100 628 1).length = 2) := by decide

/-- C1 amended: `judge = 1` yields exactly one record with the east
competitor as winner and the west competitor as loser (sharing division,
technique and ids); `judge = 2` reverses the roles; any other judge value
yields zero records. -/
theorem parser_judge_roles (e w : Competitor) (tech : String) (md t d : Int) :
    (parse_match_data (some ⟨some (some [⟨tech, some e, some w, some 1⟩])⟩)
        md t d =
      [⟨t, d, md,
        (if e.banzuke_name_eng ≠ "" then e.banzuke_name_eng
         else w.banzuke_name_eng),
        e.shikona_eng, w.shikona_eng, e.rikishi_id, w.rikishi_id, tech⟩]) ∧
    (parse_match_data (some ⟨some (some [⟨tech, some e, some w, some 2⟩])⟩)
        md t d =
      [⟨t, d, md,
        (if e.banzuke_name_eng ≠ "" then e.banzuke_name_eng
         else w.banzuke_name_eng),
        w.shikona_eng, e.shikona_eng, w.rikishi_id, e.rikishi_id, tech⟩]) ∧
    (∀ j : Option Int, j ≠ some 1 → j ≠ some 2 →
      parse_match_data (some ⟨some (some [⟨tech, some e, some w, j⟩])⟩)
        md t d = []) := by
  refine ⟨?_, ?_, ?_⟩
  · simp [parse_match_data, parseBout]
  · simp [parse_match_data, parseBout]
  · intro j h1 h2
    simp [parse_match_data, parseBout, h1, h2]

/-- Witness for C1 (amended) at a judge value that is neither 1 nor 2. -/
theorem parser_judge_roles_witness :
    parse_match_data
      (some ⟨some (some [⟨"", some ⟨none, "", ""⟩, some ⟨none, "", ""⟩,
        some 3⟩])⟩) 0 0 0 = [] :=
  (parser_judge_roles ⟨none, "", ""⟩ ⟨none, "", ""⟩ "" 0 0 0).2.2
    (some 3) (by decide) (by decide)

/-- C9: the parser is total (it is a Lean function) and never aborts a
batch: a `None` payload yields `[]`, a null `TorikumiData` yields `[]`, a
bout whose east/west sub-objects are both missing is parsed with
empty-string names and null ids, and a bout anywhere in a batch
contributes exactly its own records with the rest of the batch parsed
unchanged. -/
theorem parser_safety (md t d : Int) (bouts1 bouts2 : List Bout) (b : Bout) :
    parse_match_data none md t d = [] ∧
    parse_match_data (some ⟨some none⟩) md t d = [] ∧
    (b.east = none → b.west = none → b.judge = some 1 →
      parseBout b md t d =
        [⟨t, d, md, "", "", "", none, none, b.technic_name_eng⟩]) ∧
    parse_match_data (some ⟨some (some (bouts1 ++ b :: bouts2))⟩) md t d =
      parse_match_data (some ⟨some (some bouts1)⟩) md t d ++
        parseBout b md t d ++
        parse_match_data (some ⟨some (some bouts2)⟩) md t d := by
  refine ⟨rfl, rfl, ?_, ?_⟩
  · intro he hw hj
    simp [parseBout, he, hw, hj]
  · simp [parse_match_data, List.flatMap_append, List.flatMap_cons,
      List.append_assoc]

/-- Witness for C9: a bout with both competitor sub-objects missing. -/
theorem parser_safety_witness :
    parseBout ⟨"oshidashi", none, none, some 1⟩ 5 628 2 =
      [⟨628, 2, 5, "", "", "", none, none, "oshidashi"⟩] :=
  (parser_safety 5 628 2 [] [] ⟨"oshidashi", none, none, some 1⟩).2.2.1
    rfl rfl rfl

/-- C10: every record returned by `fetch_matches` for tournament `t` and
day `d` carries `tournament_id = t`, `tournament_day = d` and
`match_date = start_date + (d - 1)` for the resolved start date, and an
unresolved date range yields the empty list. -/
theorem fetch_matches_scope (env : FetchEnv) (t day : Int) :
    (env.dates = none → fetch_matches env t day = []) ∧
    (∀ s e, env.dates = some (s, e) → ∀ m ∈ fetch_matches env t day,
      m.tournament_id = t ∧ m.tournament_day = day ∧
        m.match_date = s + (day - 1)) := by
  constructor
  · intro h
    rcases henv : env.ajaxPayload with _ | payload
    · simp [fetch_matches, henv]
    · rcases htd : payload.torikumiData with _ | td
      · simp [fetch_matches, henv, htd]
      · simp [fetch_matches, henv, htd, h]
  · intro s e hse m hm
    rcases henv : env.ajaxPayload with _ | payload
    · simp [fetch_matches, henv] at hm
    · rcases htd : payload.torikumiData with _ | td
      · simp [fetch_matches, henv, htd] at hm
      · simp only [fetch_matches, henv, htd, hse] at hm
        exact parse_match_data_fields _ _ _ _ m hm

/-- Witness for C10 at a concrete environment with one decided bout and
resolved dates `(100, 114)`, day 3. -/
theorem fetch_matches_scope_witness :
    (⟨628, 3, 102, "Div", "E", "W", some 7, some 8, "t"⟩ :
        MatchRec).tournament_id = 628 ∧
    (⟨628, 3, 102, "Div", "E", "W", some 7, some 8, "t"⟩ :
        MatchRec).tournament_day = 3 ∧
    (⟨628, 3, 102, "Div", "E", "W", some 7, some 8, "t"⟩ :
        MatchRec).match_date = 100 + (3 - 1) :=
  (fetch_matches_scope
    ⟨some ⟨some (some [⟨"t", some ⟨some 7, "E", "Div"⟩,
      some ⟨some 8, "W", "Div"⟩, some 1⟩])⟩, some (100, 114)⟩ 628 3).2
    100 114 rfl ⟨628, 3, 102, "Div", "E", "W", some 7, some 8, "t"⟩
    (by decide)

/-- C2 counterexample: with the override table available but not
containing tournament 5, and the AJAX strategy able to succeed (it would
extract start date 100), the resolver returns nothing WITHOUT attempting
the AJAX call — the `try` block falls through to the implicit
`return None`, so the claimed continuation to the scrape/AJAX strategies
never happens. -/
theorem resolver_table_miss_counterexample :
    (get_tournament_dates ⟨some [], ⟨false, ExtractOutcome.found 100⟩⟩
      [] 5).outcome = ResolveOutcome.returned none ∧
    (get_tournament_dates ⟨some [], ⟨false, ExtractOutcome.found 100⟩⟩
      [] 5).ajaxAttempted = false := by decide

/-- C2 amended: the resolver tries the in-memory cache, then the override
table; the day-1 AJAX call is attempted only when the override table
cannot be imported at all, and there a transport/HTTP failure — or a
start-date header the regex matches but `strptime` cannot parse —
propagates as an exception rather than returning nothing, while a
successful extraction gives `end_date = start_date + 14` and a missing
date pattern returns nothing; when the table is available but lacks the
id, the resolver returns nothing without attempting AJAX (and there is no
page-scrape strategy). -/
theorem resolver_strategy_chain (env : ResolverEnv)
    (cache : List (Int × DateRange)) (tid : Int) :
    (∀ r, alookup cache tid = some r →
      get_tournament_dates env cache tid =
        ⟨ResolveOutcome.returned (some r), cache, false⟩) ∧
    (∀ T, alookup cache tid = none → env.overrideTable = some T →
      (get_tournament_dates env cache tid).outcome =
        ResolveOutcome.returned (alookup T tid) ∧
      (get_tournament_dates env cache tid).ajaxAttempted = false) ∧
    (alookup cache tid = none → env.overrideTable = none →
      (get_tournament_dates env cache tid).ajaxAttempted = true ∧
      (get_tournament_dates env cache tid).outcome =
        (if env.ajax.requestFails then ResolveOutcome.raised
         else
           match env.ajax.dayHead with
           | ExtractOutcome.found s =>
             ResolveOutcome.returned (some (s, s + 14))
           | ExtractOutcome.notFound => ResolveOutcome.returned none
           | ExtractOutcome.raises => ResolveOutcome.raised)) := by
  refine ⟨?_, ?_, ?_⟩
  · intro r h
    simp [get_tournament_dates, h]
  · intro T h hT
    rcases ht : alookup T tid with _ | r
    · simp [get_tournament_dates, h, hT, ht]
    · simp [get_tournament_dates, h, hT, ht]
  · intro h hT
    cases hf : env.ajax.requestFails
    · cases hd : env.ajax.dayHead
      · simp [get_tournament_dates, h, hT, hf, hd]
      · simp [get_tournament_dates, h, hT, hf, hd]
      · simp [get_tournament_dates, h, hT, hf, hd]
    · simp [get_tournament_dates, h, hT, hf]

/-- Witness for C2 (amended): the override table contains tournament 5,
so the resolver returns its entry without an AJAX attempt. -/
theorem resolver_strategy_chain_witness :
    (get_tournament_dates
        ⟨some [(5, (100, 114))], ⟨false, ExtractOutcome.notFound⟩⟩
        [] 5).outcome =
      ResolveOutcome.returned (alookup [(5, (100, 114))] 5) ∧
    (get_tournament_dates
        ⟨some [(5, (100, 114))], ⟨false, ExtractOutcome.notFound⟩⟩
        [] 5).ajaxAttempted = false :=
  (resolver_strategy_chain
    ⟨some [(5, (100, 114))], ⟨false, ExtractOutcome.notFound⟩⟩ [] 5).2.1
    [(5, (100, 114))] rfl rfl

/-- C4 counterexample: storing the same candidate list twice is NOT
idempotent in general.  With a committed row keyed `(7, A, B, 50)` and
candidates `[X, Y]` in scope 5, where X is novel (tournament 5) and Y
duplicates the committed row of tournament 7: X flushes, Y hits the
uniqueness constraint, and `session.rollback()` discards the whole
uncommitted transaction — including X — while `stored_count` stays 1.
Nothing is persisted, so the second run returns `stored = 1` again, not
the claimed 0. -/
theorem store_idempotent_counterexample :
    ¬ ((store_matches
        (store_matches [⟨7, 1, 50, "M", "A", "B", none, none, ""⟩]
          [⟨5, 1, 50, "M", "C", "D", none, none, ""⟩,
           ⟨7, 1, 50, "M", "A", "B", none, none, ""⟩] 5).db
        [⟨5, 1, 50, "M", "C", "D", none, none, ""⟩,
         ⟨7, 1, 50, "M", "A", "B", none, none, ""⟩] 5).stored = 0) := by
  decide

/-- C4 amended: restricted to candidate lists whose records all carry the
scope's tournament id (as the crawler produces for `store_matches`) and
whose keys are pairwise distinct, no flush can hit the uniqueness
constraint, and storing the same list twice is idempotent: the first run
stores exactly the novel candidates (key absent from the store), the
second run stores nothing, and `total_count = len(candidates)` both
times. -/
theorem store_idempotent (db cands : List MatchRec) (t : Int)
    (hscope : ∀ m ∈ cands, m.tournament_id = t)
    (hnd : (cands.map MatchRec.key).Nodup) :
    (store_matches db cands t).total = cands.length ∧
    (store_matches db cands t).stored =
      cands.countP (fun m => decide (m.key ∉ db.map MatchRec.key)) ∧
    (store_matches (store_matches db cands t).db cands t).total =
      cands.length ∧
    (store_matches (store_matches db cands t).db cands t).stored = 0 := by
  have hex0 : ∀ k ∈ (db.filter (fun m => m.tournament_id = t)).map
      MatchRec.key, k ∈ (db ++ ([] : List MatchRec)).map MatchRec.key := by
    intro k hk
    obtain ⟨x, hx, hxk⟩ := List.mem_map.mp hk
    exact List.mem_map.mpr
      ⟨x, List.mem_append_left _ (List.mem_of_mem_filter hx), hxk⟩
  have hinv0 : ∀ k ∈ (db ++ ([] : List MatchRec)).map MatchRec.key,
      k.1 = t →
      k ∈ (db.filter (fun m => m.tournament_id = t)).map MatchRec.key := by
    intro k hk hkt
    obtain ⟨x, hx, hxk⟩ := List.mem_map.mp hk
    have hx2 : x ∈ db := by simpa using hx
    have hxt : x.tournament_id = t := by
      have h1 : (MatchRec.key x).1 = x.tournament_id := rfl
      rw [hxk] at h1
      exact h1 ▸ hkt
    exact List.mem_map.mpr
      ⟨x, List.mem_filter.mpr ⟨hx2, by simpa using hxt⟩, hxk⟩
  have hstored : (store_matches db cands t).stored =
      (storeLoop db [] ((db.filter (fun m => m.tournament_id = t)).map
        MatchRec.key) 0 cands).2 := rfl
  have hdb : (store_matches db cands t).db =
      db ++ (storeLoop db [] ((db.filter (fun m => m.tournament_id = t)).map
        MatchRec.key) 0 cands).1 := rfl
  refine ⟨rfl, ?_, rfl, ?_⟩
  · rw [hstored, storeLoop_count t cands db [] _ 0 hex0 hinv0 hscope hnd]
    simp
  · have hpresent : ∀ m ∈ cands,
        m.key ∈ (store_matches db cands t).db.map MatchRec.key := by
      intro m hm
      rw [hdb]
      exact storeLoop_keys_present t cands db [] _ 0 hex0 hinv0 hscope m hm
    have hallex : ∀ m ∈ cands,
        m.key ∈ (((store_matches db cands t).db.filter
          (fun m => m.tournament_id = t)).map MatchRec.key) := by
      intro m hm
      obtain ⟨x, hx, hxk⟩ := List.mem_map.mp (hpresent m hm)
      have hxt : x.tournament_id = t := by
        have h3 := congrArg Prod.fst hxk
        have h1 : (MatchRec.key x).1 = x.tournament_id := rfl
        have h2 : (MatchRec.key m).1 = m.tournament_id := rfl
        rw [h1, h2] at h3
        rw [h3]
        exact hscope m hm
      exact List.mem_map.mpr
        ⟨x, List.mem_filter.mpr ⟨hx, by simpa using hxt⟩, hxk⟩
    have h2 : (store_matches (store_matches db cands t).db cands t).stored =
        (storeLoop (store_matches db cands t).db []
          (((store_matches db cands t).db.filter
            (fun m => m.tournament_id = t)).map MatchRec.key) 0 cands).2 :=
      rfl
    rw [h2, storeLoop_all_in_existing cands _ _ _ 0 hallex]

/-- Witness for C4 (amended): one in-scope novel candidate stored on the
first run, then the second run over the resulting store stores zero. -/
theorem store_idempotent_witness :
    (store_matches
      (store_matches [] [⟨628, 1, 100, "M", "A", "B", none, none, ""⟩]
        628).db
      [⟨628, 1, 100, "M", "A", "B", none, none, ""⟩] 628).stored = 0 :=
  (store_idempotent [] [⟨628, 1, 100, "M", "A", "B", none, none, ""⟩] 628
    (by decide) (by decide)).2.2.2

/-- C5: starting from an empty store, after any sequence of
`store_matches` operations no two stored rows share the tuple
`(tournament_id, winner_name, loser_name, match_date)`: an insert is
flushed only when its key is absent from committed and pending rows, and
a whole-transaction rollback only discards pending inserts, so the
commit can never introduce a duplicate key. -/
theorem store_uniqueness_invariant (batches : List (List MatchRec × Int)) :
    ((batches.foldl (fun db b => (store_matches db b.1 b.2).db) []).map
      MatchRec.key).Nodup := by
  suffices h : ∀ (bs : List (List MatchRec × Int)) (db : List MatchRec),
      (db.map MatchRec.key).Nodup →
      ((bs.foldl (fun db b => (store_matches db b.1 b.2).db) db).map
        MatchRec.key).Nodup by
    exact h batches [] (by simp)
  intro bs
  induction bs with
  | nil => intro db h; simpa using h
  | cons b bs ih =>
    intro db h
    simp only [List.foldl_cons]
    apply ih
    have heq : (store_matches db b.1 b.2).db =
        db ++ (storeLoop db []
          ((db.filter (fun m => m.tournament_id = b.2)).map MatchRec.key)
          0 b.1).1 := rfl
    rw [heq]
    have h0 : ((db ++ ([] : List MatchRec)).map MatchRec.key).Nodup := by
      simpa using h
    exact storeLoop_nodup b.1 db [] _ 0 h0

/-- C7 counterexample: the cache is written only on `status_code == 200`,
not on every 2xx status.  A first response with status 204 (a 2xx
success) is not cached, so the identical second request performs a second
network call — two calls in total, refuting the claimed
"exactly one underlying network call provided the first response is
2xx". -/
theorem cache_write_requires_200_counterexample :
    ¬ ((cached_request
        (throttled_request (fun _ => ⟨204, "ok", "ok", none, false⟩)) true
        ((cached_request
          (throttled_request (fun _ => ⟨204, "ok", "ok", none, false⟩)) true
          ⟨[], 0⟩ ⟨"get", "u", [], []⟩).2)
        ⟨"get", "u", [], []⟩).2.networkCalls = 1) := by decide

/-- C7 amended: with caching enabled and the request not yet cached, if
the first response has status exactly 200 then issuing the identical
request twice performs exactly one network call and the second response
is synthesized from the cached fields; a non-200 first response is not
written to the cache (and a repeat of the request hits the network
again). -/
theorem cache_transparency (net : Nat → HttpResponse) (st : TransportState)
    (r : Request) (hmiss : cacheLookup st (get_cache_key r) = none) :
    ((net st.networkCalls).status_code = 200 →
      (cached_request (throttled_request net) true
        ((cached_request (throttled_request net) true st r).2)
        r).2.networkCalls = st.networkCalls + 1 ∧
      (cached_request (throttled_request net) true
        ((cached_request (throttled_request net) true st r).2) r).1 =
        Except.ok (synthesizeResponse (toCachedData (net st.networkCalls)))) ∧
    ((net st.networkCalls).status_code ≠ 200 →
      (cached_request (throttled_request net) true st r).2.cache = st.cache ∧
      (cached_request (throttled_request net) true st r).2.networkCalls =
        st.networkCalls + 1) := by
  constructor
  · intro h200
    have hfirst : cached_request (throttled_request net) true st r =
        (Except.ok (net st.networkCalls),
          ⟨(get_cache_key r, toCachedData (net st.networkCalls)) :: st.cache,
            st.networkCalls + 1⟩) := by
      simp [cached_request, throttled_request, hmiss, h200]
    rw [hfirst]
    have hhit : cacheLookup
        ⟨(get_cache_key r, toCachedData (net st.networkCalls)) :: st.cache,
          st.networkCalls + 1⟩ (get_cache_key r) =
        some (toCachedData (net st.networkCalls)) := by
      simp [cacheLookup]
    constructor
    · simp [cached_request, hhit]
    · simp [cached_request, hhit]
  · intro h200
    constructor
    · simp [cached_request, throttled_request, hmiss, h200]
    · simp [cached_request, throttled_request, hmiss, h200]

/-- Witness for C7 (amended): a 200 network response, issued twice from
an empty cache, yields one network call in total. -/
theorem cache_transparency_witness :
    (cached_request
      (throttled_request (fun _ => ⟨200, "b", "b", none, false⟩)) true
      ((cached_request
        (throttled_request (fun _ => ⟨200, "b", "b", none, false⟩)) true
        ⟨[], 0⟩ ⟨"get", "u", [], []⟩).2)
      ⟨"get", "u", [], []⟩).2.networkCalls = 0 + 1 :=
  ((cache_transparency (fun _ => ⟨200, "b", "b", none, false⟩) ⟨[], 0⟩
    ⟨"get", "u", [], []⟩ rfl).1 rfl).1

/-- C8: in cache-only mode (`use_cache = True` and the raw-request slot
swapped to `_cached_request_only`), a request whose fingerprint is not
cached fails with an error and leaves the transport state — in
particular its network-call counter — untouched, while a cached
fingerprint is still served from the cache, also without any network
call. -/
theorem cache_only_mode (st : TransportState) (r : Request) :
    (cacheLookup st (get_cache_key r) = none →
      (cached_request cached_request_only true st r).1 =
        Except.error "No cached data available" ∧
      (cached_request cached_request_only true st r).2 = st) ∧
    (∀ cd, cacheLookup st (get_cache_key r) = some cd →
      (cached_request cached_request_only true st r).1 =
        Except.ok (synthesizeResponse cd) ∧
      (cached_request cached_request_only true st r).2 = st) := by
  constructor
  · intro h
    constructor <;> simp [cached_request, cached_request_only, h]
  · intro cd h
    constructor <;> simp [cached_request, h]

/-- Witness for C8: an uncached request in cache-only mode fails and
leaves the call counter at 3. -/
theorem cache_only_mode_witness :
    (cached_request cached_request_only true ⟨[], 3⟩
        ⟨"get", "u", [], []⟩).1 =
      Except.error "No cached data available" ∧
    (cached_request cached_request_only true ⟨[], 3⟩
        ⟨"get", "u", [], []⟩).2 = ⟨[], 3⟩ :=
  (cache_only_mode ⟨[], 3⟩ ⟨"get", "u", [], []⟩).1 rfl

end SumoTracker
